import Mathlib

/-
Verification of the request-bridging logic of a TFTP-to-HTTP proxy
(main.go): target composition, outbound request construction, response
interpretation, size-hint propagation, streaming, and base-URL
configuration resolution.

Strings are modelled as lists of characters.  External collaborators
(the net/url parser, http.NewRequest validation, the HTTP client, and
the TFTP transfer sink) are modelled as oracle parameters; the
control flow of `tftpReadHandler` and `parseBaseURL` is translated
branch by branch from the source.
-/

namespace TftpHttpProxy

/-- Go strings, modelled as lists of characters. -/
abbrev Str := List Char

/-- strings.TrimLeft(filename, "/"): drop every leading '/' character
(main.go line 47). -/
def trimLeftSlashes (s : Str) : Str := s.dropWhile (fun c => c == '/')

/-- strings.HasSuffix(s, suffix) (main.go line 103). -/
def hasSuffix (s suffix : Str) : Bool := List.isSuffixOf suffix s

/-- Length of the trailing run of '/' characters of a string; used to
state that a normalized base address ends with exactly one separator. -/
def trailingSlashCount (s : Str) : Nat :=
  (s.reverse.takeWhile (fun c => c == '/')).length

/-- http.StatusNotFound (main.go line 69). -/
def statusNotFound : Nat := 404

/-- http.StatusOK (main.go line 72). -/
def statusOK : Nat := 200

/-- The result of url.ParseRequestURI: scheme, host, and the
re-serialized form u.String().  The net/url library is external to the
repository, so parses are supplied by an oracle `Str → Option URL`. -/
structure URL where
  scheme : Str
  host : Str
  full : Str
  deriving DecidableEq

/-- The process-wide configuration (globalState in main.go, written once
in main, lines 120-124). -/
structure Config where
  httpBaseUrl : Str
  appendPath : Bool
  authUsername : Str
  authPassword : Str
  deriving DecidableEq

/-- The fatal startup failure of parseBaseURL (log.Panicf, main.go
lines 94, 97, 100), carrying the panic message. -/
inductive ConfigError where
  | invalidConfiguration (msg : Str)
  deriving DecidableEq

/-- The typed failures a single request can end in.  In the source these
are Go error values distinguished by construction site and message:
requestSetup is the error of http.NewRequest (line 53), transport the
error of httpClient.Do (line 65), fileNotFound the fixed message of
line 71, origin the status-carrying message of line 74, streamFailure
the error of rf.ReadFrom (line 85). -/
inductive TransferError where
  | requestSetup (msg : Str)
  | transport (msg : Str)
  | fileNotFound
  | origin (status : Str)
  | streamFailure (msg : Str)
  deriving DecidableEq

/-- An outbound HTTP request: target URI, the headers added in order
(main.go lines 56-58), and the optional proactive basic-auth
credentials (line 60). -/
structure OutRequest where
  uri : Str
  headers : List (Str × Str)
  basicAuth : Option (Str × Str)
  deriving DecidableEq

/-- An HTTP response as the handler consumes it: numeric status code,
status text (resp.Status, used in error messages), and content length
(negative means unknown, as in net/http). -/
structure Response where
  statusCode : Nat
  status : Str
  contentLength : Int
  deriving DecidableEq

/-- Interactions with the TFTP transfer sink, in order: SetSize
(main.go line 79) and the single ReadFrom streaming call (line 82). -/
inductive SinkEvent where
  | setSize (n : Int)
  | readFromBody
  deriving DecidableEq

/-- Everything observable about one invocation of the handler: its
return value, the request given to the HTTP client (none when
http.NewRequest failed, so nothing was dispatched), the ordered sink
interactions, and whether resp.Body.Close ran (the defer of line 67,
which exists only once Do has returned a response). -/
structure HandlerOutcome where
  result : Except TransferError Unit
  requestSent : Option OutRequest
  sinkEvents : List SinkEvent
  bodyClosed : Bool

/-- Target composition (main.go lines 40-48): start from the base URL
and, when appendPath is set, append the filename with its leading
slashes stripped. -/
def composeTarget (cfg : Config) (filename : Str) : Str :=
  if cfg.appendPath then cfg.httpBaseUrl ++ trimLeftSlashes filename
  else cfg.httpBaseUrl

/-- Request construction (main.go lines 50-61): the three X-TFTP-*
headers carry the peer IP, the decimal peer port, and the original
filename; basic auth is set exactly when the configured username is
non-empty. -/
def buildRequest (cfg : Config) (uri : Str) (peerIP : Str) (peerPort : Nat)
    (filename : Str) : OutRequest :=
  { uri := uri
    headers :=
      [ (("X-TFTP-IP").data, peerIP)
      , (("X-TFTP-Port").data, (Nat.repr peerPort).data)
      , (("X-TFTP-File").data, filename) ]
    basicAuth :=
      if cfg.authUsername = [] then none
      else some (cfg.authUsername, cfg.authPassword) }

/-- tftpReadHandler (main.go lines 35-89), translated branch by branch.
`newRequest` is the http.NewRequest validity oracle (some message on
failure), `doRequest` the HTTP client, `readBody` the rf.ReadFrom call
on the response body (byte count or error). -/
def tftpReadHandler (cfg : Config) (filename : Str) (peerIP : Str) (peerPort : Nat)
    (newRequest : Str → Option Str)
    (doRequest : OutRequest → Except Str Response)
    (readBody : Response → Except Str Nat) : HandlerOutcome :=
  let uri := composeTarget cfg filename
  match newRequest uri with
  | some errMsg =>
      { result := .error (.requestSetup errMsg), requestSent := none
        sinkEvents := [], bodyClosed := false }
  | none =>
    let req := buildRequest cfg uri peerIP peerPort filename
    match doRequest req with
    | .error errMsg =>
        { result := .error (.transport errMsg), requestSent := some req
          sinkEvents := [], bodyClosed := false }
    | .ok resp =>
      if resp.statusCode = statusNotFound then
        { result := .error .fileNotFound, requestSent := some req
          sinkEvents := [], bodyClosed := true }
      else if resp.statusCode ≠ statusOK then
        { result := .error (.origin resp.status), requestSent := some req
          sinkEvents := [], bodyClosed := true }
      else
        let sizeEvents :=
          if resp.contentLength ≥ 0 then [SinkEvent.setSize resp.contentLength] else []
        match readBody resp with
        | .error errMsg =>
            { result := .error (.streamFailure errMsg), requestSent := some req
              sinkEvents := sizeEvents ++ [SinkEvent.readFromBody], bodyClosed := true }
        | .ok _ =>
            { result := .ok (), requestSent := some req
              sinkEvents := sizeEvents ++ [SinkEvent.readFromBody], bodyClosed := true }

/-- parseBaseURL (main.go lines 91-108): parse, require a scheme and a
host, and when appendPath is set make sure the result ends with a
slash.  The log.Panicf exits are modelled as errors. -/
def parseBaseURL (parse : Str → Option URL) (baseUrl : Str) (appendPath : Bool) :
    Except ConfigError Str :=
  match parse baseUrl with
  | none => .error (.invalidConfiguration ("invalid base URL").data)
  | some u =>
    if u.scheme = [] then
      .error (.invalidConfiguration ("invalid base URL: No scheme found.").data)
    else if u.host = [] then
      .error (.invalidConfiguration ("invalid base URL: No host found.").data)
    else
      let base := u.full
      if appendPath && !(hasSuffix base ['/']) then .ok (base ++ ['/'])
      else .ok base

/-- Startup configuration resolution (main.go lines 120-124): a
parseBaseURL failure is fatal, so no Config is produced and the process
never starts serving. -/
def resolveConfig (parse : Str → Option URL) (rawBaseUrl : Str) (appendPath : Bool)
    (user pass : Str) : Except ConfigError Config :=
  match parseBaseURL parse rawBaseUrl appendPath with
  | .error e => .error e
  | .ok base =>
      .ok { httpBaseUrl := base, appendPath := appendPath
            authUsername := user, authPassword := pass }

/-! Concrete fixtures used by witness theorems. -/

/-- A configuration with appendPath on and a configured username. -/
def cfgAppend : Config :=
  { httpBaseUrl := ("http://host/x/").data, appendPath := true
    authUsername := ("u").data, authPassword := [] }

/-- A configuration with appendPath off and no username. -/
def cfgNoAppend : Config :=
  { httpBaseUrl := ("http://host/x/").data, appendPath := false
    authUsername := [], authPassword := [] }

/-- A request-construction oracle on which http.NewRequest always
succeeds. -/
def reqOracleOk : Str → Option Str := fun _ => none

/-- A request-construction oracle on which http.NewRequest always fails
with the message "bad". -/
def reqOracleBad : Str → Option Str := fun _ => some ("bad").data

/-- A 404 response. -/
def resp404 : Response :=
  { statusCode := 404, status := ("404 Not Found").data, contentLength := -1 }

/-- A 200 response declaring content length 1024. -/
def resp200 : Response :=
  { statusCode := 200, status := ("200 OK").data, contentLength := 1024 }

/-- A 200 response with an unknown content length. -/
def resp200NoLen : Response :=
  { statusCode := 200, status := ("200 OK").data, contentLength := -1 }

/-- A 500 response. -/
def resp500 : Response :=
  { statusCode := 500, status := ("500 Internal Server Error").data, contentLength := -1 }

/-- An HTTP client oracle answering every request with the given
response. -/
def clientAlways (r : Response) : OutRequest → Except Str Response := fun _ => .ok r

/-- A body-reading oracle whose streaming always succeeds. -/
def readBodyOk : Response → Except Str Nat := fun _ => .ok 0

/-- A parse oracle that parses every string as an http URL with host
"host" and the input as its serialized form. -/
def parseAlways : Str → Option URL :=
  fun s => some { scheme := ("http").data, host := ("host").data, full := s }

/-- A parse oracle that rejects every string. -/
def parseNever : Str → Option URL := fun _ => none

/-! Helper lemmas. -/

/-- Dropping a leading run twice is the same as dropping it once. -/
theorem dropWhile_self_idem (p : Char → Bool) (l : List Char) :
    (l.dropWhile p).dropWhile p = l.dropWhile p := by
  induction l with
  | nil => rfl
  | cons a t ih =>
    by_cases h : p a
    · simp [List.dropWhile_cons, h, ih]
    · simp [List.dropWhile_cons, h]

/-- A string that does not end in '/' has an empty trailing run of '/'
characters on its reverse. -/
theorem takeWhile_reverse_nil_of_no_slash (s : Str)
    (h : hasSuffix s ['/'] = false) :
    s.reverse.takeWhile (fun c => c == '/') = [] := by
  unfold hasSuffix List.isSuffixOf at h
  cases hr : s.reverse with
  | nil => simp [List.takeWhile]
  | cons c t =>
    rw [hr] at h
    simp only [List.reverse_cons, List.reverse_nil, List.nil_append,
      List.isPrefixOf, Bool.and_true, List.isPrefixOf] at h
    rw [List.takeWhile_cons]
    have hc : (c == '/') = false := by
      cases hcc : c == '/'
      · rfl
      · rw [beq_iff_eq] at hcc
        rw [hcc] at h
        simp at h
    simp [hc]

/-- Appending '/' to a string that does not end in '/' yields a string
whose trailing run of '/' has length exactly one. -/
theorem trailingSlashCount_append_slash (s : Str)
    (h : hasSuffix s ['/'] = false) :
    trailingSlashCount (s ++ ['/']) = 1 := by
  unfold trailingSlashCount
  rw [List.reverse_append]
  simp only [List.reverse_cons, List.reverse_nil, List.nil_append,
    List.singleton_append, List.takeWhile_cons]
  simp [takeWhile_reverse_nil_of_no_slash s h]

/-! C1 -/

/-- C1: with appendPath on, the composed fetch target is the base
address followed by the filename with all leading slashes stripped, and
stripping is idempotent; with appendPath off, the target is the base
address verbatim, independent of the filename. -/
theorem composeTarget_spec (cfg : Config) (filename : Str) :
    (cfg.appendPath = true →
      composeTarget cfg filename = cfg.httpBaseUrl ++ trimLeftSlashes filename ∧
      trimLeftSlashes (trimLeftSlashes filename) = trimLeftSlashes filename) ∧
    (cfg.appendPath = false → composeTarget cfg filename = cfg.httpBaseUrl) := by
  constructor
  · intro h
    refine ⟨by simp [composeTarget, h], ?_⟩
    exact dropWhile_self_idem _ filename
  · intro h
    simp [composeTarget, h]

/-- C1 witness: the spec's concrete scenario: base "http://host/x/",
appendPath on, filename "/a/b.bin" composes to "http://host/x/a/b.bin",
and with appendPath off the same filename leaves the base untouched. -/
theorem composeTarget_spec_witness :
    composeTarget cfgAppend ("/a/b.bin").data
        = cfgAppend.httpBaseUrl ++ trimLeftSlashes (("/a/b.bin").data) ∧
    composeTarget cfgNoAppend ("/a/b.bin").data = cfgNoAppend.httpBaseUrl :=
  ⟨((composeTarget_spec cfgAppend (("/a/b.bin").data)).1 (by decide)).1,
   (composeTarget_spec cfgNoAppend (("/a/b.bin").data)).2 (by decide)⟩

/-! C2 -/

/-- C2: once the fetch completed, a 404 status yields the FileNotFound
error, any other non-200 status yields the generic origin error
carrying the response status, a 200 status proceeds to size-hint
propagation and streaming, and FileNotFound is distinguishable by kind
from every other failure. -/
theorem responseOutcome_spec (cfg : Config) (filename peerIP : Str) (peerPort : Nat)
    (newRequest : Str → Option Str) (doRequest : OutRequest → Except Str Response)
    (readBody : Response → Except Str Nat) (resp : Response)
    (hreq : newRequest (composeTarget cfg filename) = none)
    (hdo : doRequest (buildRequest cfg (composeTarget cfg filename) peerIP peerPort filename)
      = .ok resp) :
    (resp.statusCode = statusNotFound →
      (tftpReadHandler cfg filename peerIP peerPort newRequest doRequest readBody).result
        = .error .fileNotFound) ∧
    (resp.statusCode ≠ statusNotFound → resp.statusCode ≠ statusOK →
      (tftpReadHandler cfg filename peerIP peerPort newRequest doRequest readBody).result
        = .error (.origin resp.status)) ∧
    (resp.statusCode = statusOK →
      (tftpReadHandler cfg filename peerIP peerPort newRequest doRequest readBody).sinkEvents
        = (if resp.contentLength ≥ 0 then [SinkEvent.setSize resp.contentLength] else [])
          ++ [SinkEvent.readFromBody]) ∧
    (∀ s m : Str, TransferError.fileNotFound ≠ .origin s ∧
      TransferError.fileNotFound ≠ .transport m ∧
      TransferError.fileNotFound ≠ .streamFailure m ∧
      TransferError.fileNotFound ≠ .requestSetup m) := by
  refine ⟨?_, ?_, ?_, ?_⟩
  · intro h404
    simp [tftpReadHandler, hreq, hdo, h404]
  · intro h404 h200
    simp [tftpReadHandler, hreq, hdo, h404, h200]
  · intro h200
    have h404 : resp.statusCode ≠ statusNotFound := by
      rw [h200]; decide
    cases hrb : readBody resp <;>
      simp [tftpReadHandler, hreq, hdo, h200, h404, hrb, statusOK, statusNotFound]
  · intro s m
    exact ⟨fun h => TransferError.noConfusion h, fun h => TransferError.noConfusion h,
      fun h => TransferError.noConfusion h, fun h => TransferError.noConfusion h⟩

/-- C2 witness: against an origin that always answers 404, the handler
returns FileNotFound. -/
theorem responseOutcome_spec_witness :
    (tftpReadHandler cfgAppend ("f").data ("ip").data 69 reqOracleOk
        (clientAlways resp404) readBodyOk).result
      = Except.error TransferError.fileNotFound :=
  (responseOutcome_spec cfgAppend (("f").data) (("ip").data) 69 reqOracleOk
    (clientAlways resp404) readBodyOk resp404 rfl rfl).1 rfl

/-! C3 -/

/-- C3: on a 200 response declaring a non-negative content length, the
sink sees exactly the size declaration of that length followed by the
streaming call — the declaration strictly precedes every byte; with a
negative (unknown) length there is no size declaration, streaming still
happens, and a successful stream yields a successful result. -/
theorem sizeHint_spec (cfg : Config) (filename peerIP : Str) (peerPort : Nat)
    (newRequest : Str → Option Str) (doRequest : OutRequest → Except Str Response)
    (readBody : Response → Except Str Nat) (resp : Response)
    (hreq : newRequest (composeTarget cfg filename) = none)
    (hdo : doRequest (buildRequest cfg (composeTarget cfg filename) peerIP peerPort filename)
      = .ok resp)
    (hok : resp.statusCode = statusOK) :
    (resp.contentLength ≥ 0 →
      (tftpReadHandler cfg filename peerIP peerPort newRequest doRequest readBody).sinkEvents
        = [SinkEvent.setSize resp.contentLength, SinkEvent.readFromBody]) ∧
    (resp.contentLength < 0 →
      (tftpReadHandler cfg filename peerIP peerPort newRequest doRequest readBody).sinkEvents
        = [SinkEvent.readFromBody]) ∧
    (∀ n, readBody resp = .ok n →
      (tftpReadHandler cfg filename peerIP peerPort newRequest doRequest readBody).result
        = .ok ()) := by
  have h404 : resp.statusCode ≠ statusNotFound := by
    rw [hok]; decide
  refine ⟨?_, ?_, ?_⟩
  · intro hcl
    cases hrb : readBody resp <;>
      simp [tftpReadHandler, hreq, hdo, hok, h404, hrb, hcl, statusOK, statusNotFound]
  · intro hcl
    have hcl' : ¬ resp.contentLength ≥ 0 := not_le.mpr hcl
    cases hrb : readBody resp <;>
      simp [tftpReadHandler, hreq, hdo, hok, h404, hrb, hcl', statusOK, statusNotFound]
  · intro n hrb
    simp [tftpReadHandler, hreq, hdo, hok, h404, hrb, statusOK, statusNotFound]

/-- C3 witness: a 200 response with content length 1024 makes the sink
see the declaration of 1024 and then the stream; a 200 response with
unknown length makes it see only the stream, and the transfer still
succeeds. -/
theorem sizeHint_spec_witness :
    (tftpReadHandler cfgAppend ("f").data ("ip").data 69 reqOracleOk
        (clientAlways resp200) readBodyOk).sinkEvents
      = [SinkEvent.setSize 1024, SinkEvent.readFromBody] ∧
    (tftpReadHandler cfgAppend ("f").data ("ip").data 69 reqOracleOk
        (clientAlways resp200NoLen) readBodyOk).sinkEvents
      = [SinkEvent.readFromBody] ∧
    (tftpReadHandler cfgAppend ("f").data ("ip").data 69 reqOracleOk
        (clientAlways resp200NoLen) readBodyOk).result = .ok () :=
  ⟨(sizeHint_spec cfgAppend (("f").data) (("ip").data) 69 reqOracleOk
      (clientAlways resp200) readBodyOk resp200 rfl rfl rfl).1 (by decide),
   (sizeHint_spec cfgAppend (("f").data) (("ip").data) 69 reqOracleOk
      (clientAlways resp200NoLen) readBodyOk resp200NoLen rfl rfl rfl).2.1 (by decide),
   (sizeHint_spec cfgAppend (("f").data) (("ip").data) 69 reqOracleOk
      (clientAlways resp200NoLen) readBodyOk resp200NoLen rfl rfl rfl).2.2 0 rfl⟩

/-! C4 -/

/-- C4: configuration resolution succeeds exactly when the raw base
address parses with a non-empty scheme and a non-empty host; every
failure is the fatal InvalidConfiguration error, so no configuration is
produced and serving never starts. -/
theorem resolveConfig_spec (parse : Str → Option URL) (raw : Str) (ap : Bool)
    (user pass : Str) :
    ((∃ cfg, resolveConfig parse raw ap user pass = .ok cfg) ↔
      ∃ u, parse raw = some u ∧ u.scheme ≠ [] ∧ u.host ≠ []) ∧
    (∀ e, resolveConfig parse raw ap user pass = .error e →
      ∃ msg, e = .invalidConfiguration msg) := by
  refine ⟨?_, fun e _ => by cases e; exact ⟨_, rfl⟩⟩
  unfold resolveConfig parseBaseURL
  cases hp : parse raw with
  | none => simp
  | some u =>
    by_cases hs : u.scheme = []
    · simp [hs]
    · by_cases hh : u.host = []
      · simp [hs, hh]
      · by_cases hc : (ap && !(hasSuffix u.full ['/'])) = true
        · simp [hs, hh, hc]
        · simp [hs, hh, hc]

/-- C4 witness: a parsable base address with scheme and host resolves;
an unparsable one does not. -/
theorem resolveConfig_spec_witness :
    (resolveConfig parseAlways ("http://host/x").data true [] []).isOk = true := by
  obtain ⟨cfg, hc⟩ :=
    (resolveConfig_spec parseAlways (("http://host/x").data) true [] []).1.mpr
      ⟨{ scheme := ("http").data, host := ("host").data
         full := ("http://host/x").data }, rfl, by decide, by decide⟩
  rw [hc]
  rfl

/-! C5 -/

/-- C5: for a valid base address, when appendPath is on and the parsed
form does not already end in '/', resolution returns that form with
exactly one '/' appended (and the result ends in exactly one); when
appendPath is off, resolution returns the parsed form unchanged. -/
theorem parseBaseURL_normalization (parse : Str → Option URL) (raw : Str) (ap : Bool)
    (u : URL) (hp : parse raw = some u) (hs : u.scheme ≠ []) (hh : u.host ≠ []) :
    (ap = true → hasSuffix u.full ['/'] = false →
      parseBaseURL parse raw ap = .ok (u.full ++ ['/']) ∧
      trailingSlashCount (u.full ++ ['/']) = 1) ∧
    (ap = false → parseBaseURL parse raw ap = .ok u.full) := by
  constructor
  · intro hap hsuf
    refine ⟨?_, trailingSlashCount_append_slash u.full hsuf⟩
    simp [parseBaseURL, hp, hs, hh, hap, hsuf]
  · intro hap
    simp [parseBaseURL, hp, hs, hh, hap]

/-- C5 witness: "http://host/x" with appendPath on resolves to itself
plus exactly one trailing slash; with appendPath off it is unchanged. -/
theorem parseBaseURL_normalization_witness :
    parseBaseURL parseAlways ("http://host/x").data true
      = Except.ok (("http://host/x").data ++ ['/']) ∧
    trailingSlashCount (("http://host/x").data ++ ['/']) = 1 ∧
    parseBaseURL parseAlways ("http://host/x").data false
      = Except.ok (("http://host/x").data) := by
  have h := parseBaseURL_normalization parseAlways (("http://host/x").data) true
    { scheme := ("http").data, host := ("host").data, full := ("http://host/x").data }
    rfl (by decide) (by decide)
  have h2 := parseBaseURL_normalization parseAlways (("http://host/x").data) false
    { scheme := ("http").data, host := ("host").data, full := ("http://host/x").data }
    rfl (by decide) (by decide)
  obtain ⟨ha, hb⟩ := h.1 rfl (by decide)
  exact ⟨ha, hb, h2.2 rfl⟩

/-! C6 -/

/-- C6: every dispatched fetch carries the three metadata headers —
peer IP, peer port, and the original filename exactly as received —
and carries the configured basic-auth credentials exactly when the
configured username is non-empty. -/
theorem requestMetadata_spec (cfg : Config) (filename peerIP : Str) (peerPort : Nat)
    (newRequest : Str → Option Str) (doRequest : OutRequest → Except Str Response)
    (readBody : Response → Except Str Nat)
    (hreq : newRequest (composeTarget cfg filename) = none) :
    (tftpReadHandler cfg filename peerIP peerPort newRequest doRequest readBody).requestSent
      = some (buildRequest cfg (composeTarget cfg filename) peerIP peerPort filename) ∧
    (buildRequest cfg (composeTarget cfg filename) peerIP peerPort filename).headers
      = [ (("X-TFTP-IP").data, peerIP)
        , (("X-TFTP-Port").data, (Nat.repr peerPort).data)
        , (("X-TFTP-File").data, filename) ] ∧
    ((buildRequest cfg (composeTarget cfg filename) peerIP peerPort filename).basicAuth
        = some (cfg.authUsername, cfg.authPassword) ↔ cfg.authUsername ≠ []) ∧
    (cfg.authUsername = [] →
      (buildRequest cfg (composeTarget cfg filename) peerIP peerPort filename).basicAuth
        = none) := by
  refine ⟨?_, rfl, ⟨?_, ?_⟩, ?_⟩
  · cases hdo : doRequest (buildRequest cfg (composeTarget cfg filename) peerIP peerPort filename) with
    | error e => simp [tftpReadHandler, hreq, hdo]
    | ok resp =>
      by_cases h404 : resp.statusCode = statusNotFound
      · simp [tftpReadHandler, hreq, hdo, h404]
      · by_cases h200 : resp.statusCode = statusOK
        · cases hrb : readBody resp <;>
            simp [tftpReadHandler, hreq, hdo, h404, h200, hrb, statusOK, statusNotFound]
        · simp [tftpReadHandler, hreq, hdo, h404, h200]
  · intro hba hu
    simp [buildRequest, hu] at hba
  · intro hu
    simp [buildRequest, hu]
  · intro hu
    simp [buildRequest, hu]

/-- C6 witness: with username "u" configured, the dispatched request is
exactly the one built from the composed target, the peer identity and
the original filename. -/
theorem requestMetadata_spec_witness :
    (tftpReadHandler cfgAppend ("/f").data ("1.2.3.4").data 69 reqOracleOk
        (clientAlways resp200) readBodyOk).requestSent
      = some (buildRequest cfgAppend (composeTarget cfgAppend ("/f").data)
          ("1.2.3.4").data 69 ("/f").data) :=
  (requestMetadata_spec cfgAppend (("/f").data) (("1.2.3.4").data) 69 reqOracleOk
    (clientAlways resp200) readBodyOk rfl).1

/-! C7 -/

/-- C7: whenever the fetch produced a response, the handler marks the
response body closed on every exit path: not-found, other origin
status, stream failure, and success alike. -/
theorem bodyClosed_spec (cfg : Config) (filename peerIP : Str) (peerPort : Nat)
    (newRequest : Str → Option Str) (doRequest : OutRequest → Except Str Response)
    (readBody : Response → Except Str Nat) (resp : Response)
    (hreq : newRequest (composeTarget cfg filename) = none)
    (hdo : doRequest (buildRequest cfg (composeTarget cfg filename) peerIP peerPort filename)
      = .ok resp) :
    (tftpReadHandler cfg filename peerIP peerPort newRequest doRequest readBody).bodyClosed
      = true := by
  by_cases h404 : resp.statusCode = statusNotFound
  · simp [tftpReadHandler, hreq, hdo, h404]
  · by_cases h200 : resp.statusCode = statusOK
    · cases hrb : readBody resp <;>
        simp [tftpReadHandler, hreq, hdo, h404, h200, hrb, statusOK, statusNotFound]
    · simp [tftpReadHandler, hreq, hdo, h404, h200]

/-- C7 witness: the body is closed on a 404 outcome. -/
theorem bodyClosed_spec_witness :
    (tftpReadHandler cfgAppend ("f").data ("ip").data 69 reqOracleOk
        (clientAlways resp404) readBodyOk).bodyClosed = true :=
  bodyClosed_spec cfgAppend (("f").data) (("ip").data) 69 reqOracleOk
    (clientAlways resp404) readBodyOk resp404 rfl rfl

/-! C8 -/

/-- C8: on every non-200 response (404 included) the handler returns an
error and never touches the sink: no size declaration and no bytes. -/
theorem errorStatus_noSink (cfg : Config) (filename peerIP : Str) (peerPort : Nat)
    (newRequest : Str → Option Str) (doRequest : OutRequest → Except Str Response)
    (readBody : Response → Except Str Nat) (resp : Response)
    (hreq : newRequest (composeTarget cfg filename) = none)
    (hdo : doRequest (buildRequest cfg (composeTarget cfg filename) peerIP peerPort filename)
      = .ok resp)
    (hne : resp.statusCode ≠ statusOK) :
    (tftpReadHandler cfg filename peerIP peerPort newRequest doRequest readBody).sinkEvents
      = [] ∧
    ∃ e, (tftpReadHandler cfg filename peerIP peerPort newRequest doRequest readBody).result
      = .error e := by
  by_cases h404 : resp.statusCode = statusNotFound
  · exact ⟨by simp [tftpReadHandler, hreq, hdo, h404],
      ⟨.fileNotFound, by simp [tftpReadHandler, hreq, hdo, h404]⟩⟩
  · exact ⟨by simp [tftpReadHandler, hreq, hdo, h404, hne],
      ⟨.origin resp.status, by simp [tftpReadHandler, hreq, hdo, h404, hne]⟩⟩

/-- C8 witness: a 500 response leaves the sink untouched. -/
theorem errorStatus_noSink_witness :
    (tftpReadHandler cfgAppend ("f").data ("ip").data 69 reqOracleOk
        (clientAlways resp500) readBodyOk).sinkEvents = [] :=
  (errorStatus_noSink cfgAppend (("f").data) (("ip").data) 69 reqOracleOk
    (clientAlways resp500) readBodyOk resp500 rfl rfl (by decide)).1

/-! C9 -/

/-- C9: when request construction fails, the handler returns that error
at once — nothing is dispatched and the sink is untouched. -/
theorem requestSetupFailure_spec (cfg : Config) (filename peerIP : Str) (peerPort : Nat)
    (newRequest : Str → Option Str) (doRequest : OutRequest → Except Str Response)
    (readBody : Response → Except Str Nat) (errMsg : Str)
    (hreq : newRequest (composeTarget cfg filename) = some errMsg) :
    (tftpReadHandler cfg filename peerIP peerPort newRequest doRequest readBody).result
      = .error (.requestSetup errMsg) ∧
    (tftpReadHandler cfg filename peerIP peerPort newRequest doRequest readBody).requestSent
      = none ∧
    (tftpReadHandler cfg filename peerIP peerPort newRequest doRequest readBody).sinkEvents
      = [] := by
  refine ⟨?_, ?_, ?_⟩ <;> simp [tftpReadHandler, hreq]

/-- C9 witness: a failing request constructor aborts the handler with
no dispatched request and an empty sink trace. -/
theorem requestSetupFailure_spec_witness :
    (tftpReadHandler cfgAppend ("f").data ("ip").data 69 reqOracleBad
        (clientAlways resp200) readBodyOk).requestSent = none ∧
    (tftpReadHandler cfgAppend ("f").data ("ip").data 69 reqOracleBad
        (clientAlways resp200) readBodyOk).sinkEvents = [] :=
  ⟨(requestSetupFailure_spec cfgAppend (("f").data) (("ip").data) 69 reqOracleBad
      (clientAlways resp200) readBodyOk (("bad").data) rfl).2.1,
   (requestSetupFailure_spec cfgAppend (("f").data) (("ip").data) 69 reqOracleBad
      (clientAlways resp200) readBodyOk (("bad").data) rfl).2.2⟩

/-! C10 -/

/-- C10: a filename made only of '/' characters (the empty filename
included) composes, under appendPath, to the base address itself, and
the handler proceeds past composition: the dispatched request targets
the bare base address. -/
theorem slashOnlyFilename_spec (cfg : Config) (filename peerIP : Str) (peerPort : Nat)
    (newRequest : Str → Option Str) (doRequest : OutRequest → Except Str Response)
    (readBody : Response → Except Str Nat)
    (hap : cfg.appendPath = true)
    (hall : ∀ c ∈ filename, c = '/')
    (hreq : newRequest cfg.httpBaseUrl = none) :
    composeTarget cfg filename = cfg.httpBaseUrl ∧
    (tftpReadHandler cfg filename peerIP peerPort newRequest doRequest readBody).requestSent
      = some (buildRequest cfg cfg.httpBaseUrl peerIP peerPort filename) := by
  have hstrip : trimLeftSlashes filename = [] := by
    unfold trimLeftSlashes
    rw [List.dropWhile_eq_nil_iff]
    intro x hx
    simp [hall x hx]
  have hcomp : composeTarget cfg filename = cfg.httpBaseUrl := by
    simp [composeTarget, hap, hstrip]
  have hreq' : newRequest (composeTarget cfg filename) = none := by
    rw [hcomp]; exact hreq
  refine ⟨hcomp, ?_⟩
  have hsent : (tftpReadHandler cfg filename peerIP peerPort newRequest doRequest
      readBody).requestSent
      = some (buildRequest cfg (composeTarget cfg filename) peerIP peerPort filename) := by
    cases hdo : doRequest (buildRequest cfg (composeTarget cfg filename) peerIP peerPort filename) with
    | error e => simp [tftpReadHandler, hreq', hdo]
    | ok resp =>
      by_cases h404 : resp.statusCode = statusNotFound
      · simp [tftpReadHandler, hreq', hdo, h404]
      · by_cases h200 : resp.statusCode = statusOK
        · cases hrb : readBody resp <;>
            simp [tftpReadHandler, hreq', hdo, h404, h200, hrb, statusOK, statusNotFound]
        · simp [tftpReadHandler, hreq', hdo, h404, h200]
  rw [hsent, hcomp]

/-- C10 witness: the filename "///" composes to the bare base address
and the handler still dispatches a request. -/
theorem slashOnlyFilename_spec_witness :
    composeTarget cfgAppend ("///").data = cfgAppend.httpBaseUrl ∧
    (tftpReadHandler cfgAppend ("///").data ("ip").data 69 reqOracleOk
        (clientAlways resp200) readBodyOk).requestSent
      = some (buildRequest cfgAppend cfgAppend.httpBaseUrl ("ip").data 69 ("///").data) :=
  slashOnlyFilename_spec cfgAppend (("///").data) (("ip").data) 69 reqOracleOk
    (clientAlways resp200) readBodyOk rfl (by decide) rfl

end TftpHttpProxy
